import Mathlib

/-!
Verification of the RAG pipeline in `sas_chat_app.py`.

The pipeline has three pure-logic parts, embedded here over explicit models of
the external services:
- `retrieve_relevant_chunks` turns the vector index's match list into a list of
  `Fragment`s, reading the owning file best-effort;
- `build_context` serializes the fragments into the Context Block string;
- `chat_with_sas_assistant` builds the grounding prompt, sends the generation
  request and appends the citation footer.

External collaborators are modelled as explicit inputs: the filesystem is a
function `String → FileState`, the vector index's response is the `List Match`
argument, and the generation service is an oracle `GenRequest → String`.
Python floats (similarity scores) are modelled as rationals.
-/

namespace SasChat

/-- Metadata attached to one vector-index match.  Every field is optional at
the wire level; the Python code raises `KeyError` on the required ones and
applies `.get` defaults to the rest. -/
structure Metadata where
  chunk_type : Option String
  name : Option String
  code : Option String
  explanation : Option String
  filepath : Option String
  filename : Option String
  line_start : Option Int
  line_end : Option Int
deriving DecidableEq, Repr

/-- One match returned by the vector index: a similarity score plus metadata. -/
structure IndexMatch where
  score : ℚ
  metadata : Metadata
deriving DecidableEq, Repr

/-- State of one path in the modelled filesystem: missing, present but failing
to read (I/O or decode error), or readable with the given text. -/
inductive FileState where
  | absent : FileState
  | unreadable : FileState
  | readable : String → FileState
deriving DecidableEq, Repr

/-- A retrieved fragment: the dict built per match in `retrieve_relevant_chunks`
(src/sas_chat_app.py lines 57-68). -/
structure Fragment where
  rank : Nat
  score : ℚ
  chunk_type : String
  name : String
  code : String
  explanation : String
  filename : String
  line_start : Int
  line_end : Int
  full_file_content : String
deriving DecidableEq, Repr

/-- The one error the fragment-construction code can raise: a `KeyError` on a
required metadata field. -/
inductive RetrieveError where
  | keyError : String → RetrieveError
deriving DecidableEq, Repr

deriving instance DecidableEq for Except

/-- `match['metadata'][k]` on a required field: absent means `KeyError k`. -/
def requireField (k : String) : Option α → Except RetrieveError α
  | some v => .ok v
  | none => .error (.keyError k)

/-- Lines 49-55: `full_file_content` starts empty; if the (possibly defaulted)
filepath is non-empty (Python truthiness) and `os.path.exists` holds, the file
is read inside try/except, any exception degrading to "File not accessible". -/
def readFullFile (fs : String → FileState) (filepath : String) : String :=
  if filepath = "" then ""
  else
    match fs filepath with
    | .absent => ""
    | .readable s => s
    | .unreadable => "File not accessible"

/-- Lines 46-68: build the fragment dict for match number `i` (0-based), with
`rank = i + 1`, required fields raising `KeyError`, optional fields defaulted. -/
def fragmentOfMatch (fs : String → FileState) (i : Nat) (m : IndexMatch) :
    Except RetrieveError Fragment := do
  let filepath := m.metadata.filepath.getD ""
  let full := readFullFile fs filepath
  let ct ← requireField "chunk_type" m.metadata.chunk_type
  let nm ← requireField "name" m.metadata.name
  let cd ← requireField "code" m.metadata.code
  let ex ← requireField "explanation" m.metadata.explanation
  pure
    { rank := i + 1
      score := m.score
      chunk_type := ct
      name := nm
      code := cd
      explanation := ex
      filename := m.metadata.filename.getD ""
      line_start := m.metadata.line_start.getD 0
      line_end := m.metadata.line_end.getD 0
      full_file_content := full }

/-- The enumerate loop of lines 45-68, starting at index `i`: a `KeyError` on
any match aborts the whole call. -/
def retrieveAux (fs : String → FileState) : Nat → List IndexMatch →
    Except RetrieveError (List Fragment)
  | _, [] => .ok []
  | i, m :: ms => do
    let f ← fragmentOfMatch fs i m
    let rest ← retrieveAux fs (i + 1) ms
    pure (f :: rest)

/-- `retrieve_relevant_chunks` (lines 31-70), with the external calls factored
out: `matchList` is the ordered match list the vector index returned for the
query (the index is contracted to return at most `top_k` of them). -/
def retrieve_relevant_chunks (fs : String → FileState)
    (matchList : List IndexMatch) : Except RetrieveError (List Fragment) :=
  retrieveAux fs 0 matchList

/-- The 70-character `'='*70` separator line of `build_context`. -/
def sep70 : String :=
  String.mk (List.replicate 70 '=')

/-- The exact strings the `build_context` loop body appends for one chunk
(lines 77-87), in order; the FULL FILE CONTEXT piece is emitted only when
`full_file_content` is truthy (non-empty). -/
def sectionParts (c : Fragment) : List String :=
  ["\n" ++ sep70 ++ "\n",
   "CHUNK " ++ toString c.rank ++ ": " ++ c.chunk_type ++ " - " ++ c.name ++ "\n",
   "File: " ++ c.filename ++ " (Lines " ++ toString c.line_start ++ "-" ++
     toString c.line_end ++ ")\n",
   sep70 ++ "\n"]
  ++ (if c.full_file_content = "" then []
      else ["\n--- FULL FILE CONTEXT ---\n" ++ c.full_file_content ++ "\n"])
  ++ ["\n--- SPECIFIC CHUNK ---\n",
      "Explanation: " ++ c.explanation ++ "\n",
      "Code:\n" ++ c.code ++ "\n"]

/-- Concatenation of a list of strings. -/
def concatStrings (l : List String) : String :=
  l.foldr (· ++ ·) ""

/-- Everything `build_context` appends for one chunk. -/
def sectionOf (c : Fragment) : String :=
  concatStrings (sectionParts c)

/-- `build_context` (lines 73-89): start from `""` and append each chunk's
section in input order. -/
def build_context (chunks : List Fragment) : String :=
  chunks.foldl (fun context c => context ++ sectionOf c) ""

/-- Pad a fractional part to three digits. -/
def padTo3 (n : Nat) : String :=
  if n < 10 then "00" ++ toString n
  else if n < 100 then "0" ++ toString n
  else toString n

/-- Python's `f"{score:.3f}"`: the score rounded to the nearest thousandth and
printed with exactly three digits after the decimal point.  Floats are
modelled as rationals; the integer below is `⌊1000q + 1/2⌋` computed on the
numerator and denominator. -/
def formatScore3 (q : ℚ) : String :=
  let m : ℤ := Int.fdiv (2 * (q.num * 1000) + (q.den : ℤ)) (2 * (q.den : ℤ))
  let sign := if m < 0 then "-" else ""
  sign ++ toString (m.natAbs / 1000) ++ "." ++ padTo3 (m.natAbs % 1000)

/-- First citation line for a chunk (line 120): chunk type, name and score. -/
def citLine1 (c : Fragment) : String :=
  "- " ++ c.chunk_type ++ ": `" ++ c.name ++ "` (score: " ++
    formatScore3 c.score ++ ")\n"

/-- Second citation line for a chunk (line 121): filename and line range. -/
def citLine2 (c : Fragment) : String :=
  "  📁 " ++ c.filename ++ " (Lines " ++ toString c.line_start ++ "-" ++
    toString c.line_end ++ ")\n"

/-- The fixed header the citation footer starts from (line 118). -/
def chunksInfoHeader : String :=
  "\n\n---\n**📚 Retrieved Chunks:**\n"

/-- The citation footer `chunks_info` (lines 118-121): the header, then two
lines per chunk, appended in input order. -/
def chunks_info (chunks : List Fragment) : String :=
  chunks.foldl (fun acc c => acc ++ citLine1 c ++ citLine2 c) chunksInfoHeader

/-- The two citation lines of every chunk, flattened in input order. -/
def citationLineList (chunks : List Fragment) : List String :=
  chunks.flatMap (fun c => [citLine1 c, citLine2 c])

/-- Number of newline characters in a string: the number of (newline-terminated)
lines in a block where every emitted line ends with `\n`. -/
def newlineCount (s : String) : Nat :=
  s.data.count '\n'

/-- The grounding prompt of lines 97-104, embedding the Context Block and the
user question verbatim. -/
def buildPrompt (context message : String) : String :=
  "You are a SAS programming expert assistant. Answer the user's question based on the following relevant SAS code chunks.\n\nRETRIEVED CONTEXT:\n"
    ++ context
    ++ "\n\nUSER QUESTION: " ++ message
    ++ "\n\nProvide a clear, helpful answer based on the context above. Reference specific code examples when relevant."

/-- One role-tagged message of the generation request. -/
structure ChatMessage where
  role : String
  content : String
deriving DecidableEq, Repr

/-- The generation request of lines 106-114: model, messages, temperature
(0.3) and max output tokens (1500). -/
structure GenRequest where
  model : String
  messages : List ChatMessage
  temperature : ℚ
  max_tokens : Nat
deriving DecidableEq, Repr

/-- The generation request `chat_with_sas_assistant` sends for a message,
given the Context Block already built from the retrieved chunks. -/
def chatRequest (chatModel context message : String) : GenRequest :=
  { model := chatModel
    messages :=
      [{ role := "system", content := "You are a helpful SAS programming assistant." },
       { role := "user", content := buildPrompt context message }]
    temperature := 3 / 10
    max_tokens := 1500 }

/-- `chat_with_sas_assistant` (lines 92-123).  External collaborators are
explicit inputs: `fs` the filesystem, `matchList` the vector index's response
to the top-3 query for `message`, `gen` the generation service's answer to a
request, `chatModel` the configured deployment name.  `history` is the prior
turns the host UI passes in.  Errors of `retrieve_relevant_chunks` propagate. -/
def chat_with_sas_assistant (fs : String → FileState)
    (matchList : List IndexMatch) (gen : GenRequest → String)
    (chatModel : String) (message : String)
    (history : List (String × String)) : Except RetrieveError String := do
  let chunks ← retrieve_relevant_chunks fs matchList
  let context := build_context chunks
  let answer := gen (chatRequest chatModel context message)
  pure (answer ++ chunks_info chunks)

/-! ### Helper lemmas -/

theorem concatStrings_nil : concatStrings [] = "" := rfl

theorem concatStrings_cons (s : String) (l : List String) :
    concatStrings (s :: l) = s ++ concatStrings l := rfl

/-- A left fold that appends `f c` at each step is the starting accumulator
followed by the concatenation of all the `f c`. -/
theorem foldl_append_eq (f : α → String) :
    ∀ (cs : List α) (acc : String),
      cs.foldl (fun a c => a ++ f c) acc = acc ++ concatStrings (cs.map f)
  | [], acc => by simp [concatStrings]
  | c :: cs, acc => by
    simp only [List.foldl_cons, List.map_cons, concatStrings_cons]
    rw [foldl_append_eq f cs (acc ++ f c), String.append_assoc]

/-- The Context Block is the concatenation of one section per chunk. -/
theorem build_context_eq (chunks : List Fragment) :
    build_context chunks = concatStrings (chunks.map sectionOf) := by
  rw [build_context, foldl_append_eq sectionOf chunks "", String.empty_append]

/-- The two-lines-per-chunk flattening of the citation footer. -/
theorem concat_citationLineList (chunks : List Fragment) :
    concatStrings (citationLineList chunks) =
      concatStrings (chunks.map fun c => citLine1 c ++ citLine2 c) := by
  induction chunks with
  | nil => rfl
  | cons c cs ih =>
    simp only [citationLineList, List.flatMap_cons, List.map_cons] at ih ⊢
    simp only [List.cons_append, List.nil_append, concatStrings_cons, ih,
      String.append_assoc]

/-- The citation footer is the header followed by the two citation lines of
every chunk, in input order. -/
theorem chunks_info_eq (chunks : List Fragment) :
    chunks_info chunks = chunksInfoHeader ++ concatStrings (citationLineList chunks) := by
  have hfun : (fun (acc : String) (c : Fragment) => acc ++ citLine1 c ++ citLine2 c) =
      fun acc c => acc ++ (citLine1 c ++ citLine2 c) := by
    funext acc c
    rw [String.append_assoc]
  rw [chunks_info, hfun, foldl_append_eq (fun c => citLine1 c ++ citLine2 c) chunks
    chunksInfoHeader, concat_citationLineList]

/-- `sub` occurs somewhere inside `s`. -/
def ContainsStr (s sub : String) : Prop :=
  ∃ a b, s = a ++ (sub ++ b)

theorem containsStr_appendL (s t sub : String) (h : ContainsStr t sub) :
    ContainsStr (s ++ t) sub := by
  obtain ⟨a, b, rfl⟩ := h
  exact ⟨s ++ a, b, by rw [String.append_assoc]⟩

theorem containsStr_appendR (s t sub : String) (h : ContainsStr s sub) :
    ContainsStr (s ++ t) sub := by
  obtain ⟨a, b, rfl⟩ := h
  exact ⟨a, b ++ t, by simp [String.append_assoc]⟩

theorem containsStr_middle (a sub b : String) : ContainsStr (a ++ sub ++ b) sub :=
  ⟨a, b, by rw [String.append_assoc]⟩

theorem containsStr_left (sub b : String) : ContainsStr (sub ++ b) sub :=
  ⟨"", b, by rw [String.empty_append]⟩

theorem containsStr_right (a sub : String) : ContainsStr (a ++ sub) sub :=
  ⟨a, "", by rw [String.append_empty]⟩

/-- All four required metadata fields are present on a match. -/
def requiredPresent (m : IndexMatch) : Prop :=
  m.metadata.chunk_type.isSome ∧ m.metadata.name.isSome ∧
    m.metadata.code.isSome ∧ m.metadata.explanation.isSome

instance (m : IndexMatch) : Decidable (requiredPresent m) := by
  unfold requiredPresent
  infer_instance

/-- Characterization of a successful fragment construction. -/
theorem fragmentOfMatch_ok_iff (fs : String → FileState) (i : Nat)
    (m : IndexMatch) (f : Fragment) :
    fragmentOfMatch fs i m = .ok f ↔
      (m.metadata.chunk_type = some f.chunk_type ∧ m.metadata.name = some f.name ∧
       m.metadata.code = some f.code ∧ m.metadata.explanation = some f.explanation ∧
       f.rank = i + 1 ∧ f.score = m.score ∧
       f.filename = m.metadata.filename.getD "" ∧
       f.line_start = m.metadata.line_start.getD 0 ∧
       f.line_end = m.metadata.line_end.getD 0 ∧
       f.full_file_content = readFullFile fs (m.metadata.filepath.getD "")) := by
  obtain ⟨rank, score, ct, nm, cd, ex, fn, ls, le, full⟩ := f
  rcases hct : m.metadata.chunk_type with _ | ct' <;>
    rcases hnm : m.metadata.name with _ | nm' <;>
      rcases hcd : m.metadata.code with _ | cd' <;>
        rcases hex : m.metadata.explanation with _ | ex' <;>
          simp [fragmentOfMatch, requireField, hct, hnm, hcd, hex,
            Except.instMonad, Except.bind, Except.pure, and_assoc, eq_comm] <;> aesop

/-- A failed fragment construction is exactly a missing required field. -/
theorem fragmentOfMatch_error_iff (fs : String → FileState) (i : Nat)
    (m : IndexMatch) :
    (∃ e, fragmentOfMatch fs i m = .error e) ↔ ¬ requiredPresent m := by
  rcases hct : m.metadata.chunk_type with _ | ct' <;>
    rcases hnm : m.metadata.name with _ | nm' <;>
      rcases hcd : m.metadata.code with _ | cd' <;>
        rcases hex : m.metadata.explanation with _ | ex' <;>
          simp [fragmentOfMatch, requireField, requiredPresent, hct, hnm, hcd, hex,
            Except.instMonad, Except.bind, Except.pure]

/-- Successful retrieval from loop index `i`: one fragment per match and
consecutive ranks starting at `i + 1`. -/
theorem retrieveAux_ok (fs : String → FileState) :
    ∀ (ms : List IndexMatch) (i : Nat) (frs : List Fragment),
      retrieveAux fs i ms = .ok frs →
      frs.length = ms.length ∧
        frs.map Fragment.rank = List.range' (i + 1) ms.length
  | [], _, frs, h => by
    simp only [retrieveAux] at h
    cases h
    simp
  | m :: ms, i, frs, h => by
    cases hf : fragmentOfMatch fs i m with
    | error e => simp [retrieveAux, hf, Except.instMonad, Except.bind] at h
    | ok f =>
      cases hr : retrieveAux fs (i + 1) ms with
      | error e => simp [retrieveAux, hf, hr, Except.instMonad, Except.bind] at h
      | ok rest =>
        simp only [retrieveAux, hf, hr, Except.instMonad, Except.bind,
          Except.pure] at h
        cases h
        have ih := retrieveAux_ok fs ms (i + 1) rest hr
        have hrank : f.rank = i + 1 :=
          ((fragmentOfMatch_ok_iff fs i m f).mp hf).2.2.2.2.1
        refine ⟨by simp [ih.1], ?_⟩
        simp [List.range'_succ, hrank, ih.2]

/-- If some match misses a required field, the whole loop fails. -/
theorem retrieveAux_error_of_missing (fs : String → FileState) :
    ∀ (ms : List IndexMatch) (i : Nat), (∃ m ∈ ms, ¬ requiredPresent m) →
      ∃ e, retrieveAux fs i ms = .error e
  | [], _, h => by simp at h
  | m :: ms, i, h => by
    cases hf : fragmentOfMatch fs i m with
    | error e => exact ⟨e, by simp [retrieveAux, hf, Except.instMonad, Except.bind]⟩
    | ok f =>
      have hm : requiredPresent m := by
        by_contra hnot
        obtain ⟨e, he⟩ := (fragmentOfMatch_error_iff fs i m).mpr hnot
        rw [he] at hf
        cases hf
      obtain ⟨m', hm', hmiss⟩ := h
      rcases List.mem_cons.mp hm' with rfl | hm'
      · exact absurd hm hmiss
      · obtain ⟨e, he⟩ :=
          retrieveAux_error_of_missing fs ms (i + 1) ⟨m', hm', hmiss⟩
        exact ⟨e, by simp [retrieveAux, hf, he, Except.instMonad, Except.bind]⟩

/-- If every match has its required fields, the loop never fails — whatever
the filesystem looks like. -/
theorem retrieveAux_ok_of_required (fs : String → FileState) :
    ∀ (ms : List IndexMatch) (i : Nat), (∀ m ∈ ms, requiredPresent m) →
      ∃ frs, retrieveAux fs i ms = .ok frs ∧ frs.length = ms.length
  | [], _, _ => ⟨[], rfl, rfl⟩
  | m :: ms, i, h => by
    have hm := h m (List.mem_cons_self m ms)
    cases hf : fragmentOfMatch fs i m with
    | error e =>
      exact absurd ((fragmentOfMatch_error_iff fs i m).mp ⟨e, hf⟩)
        (not_not_intro hm)
    | ok f =>
      obtain ⟨frs, hfrs, hlen⟩ := retrieveAux_ok_of_required fs ms (i + 1)
        (fun m' hm' => h m' (List.mem_cons_of_mem _ hm'))
      refine ⟨f :: frs, ?_, by simp [hlen]⟩
      simp [retrieveAux, hf, hfrs, Except.instMonad, Except.bind, Except.pure]

/-- A failed read (no readable file at the path) leaves `full_file_content`
empty or at the placeholder. -/
theorem readFullFile_of_read_failure (fs : String → FileState) (path : String)
    (h : ∀ s, fs path ≠ .readable s) :
    readFullFile fs path = "" ∨ readFullFile fs path = "File not accessible" := by
  unfold readFullFile
  by_cases hp : path = ""
  · simp [hp]
  · simp only [hp, if_false]
    cases hfs : fs path with
    | absent => simp
    | unreadable => simp
    | readable s => exact absurd hfs (h s)

/-! ### Concrete data used by witnesses and counterexamples -/

/-- A fully populated metadata record. -/
def mdFull : Metadata :=
  { chunk_type := some "macro", name := some "calc_dy", code := some "dy = a - b;",
    explanation := some "computes the SDTM DY variable",
    filepath := some "lib/dy.sas", filename := some "dy.sas",
    line_start := some 10, line_end := some 25 }

/-- Metadata missing the required `name` field. -/
def mdNoName : Metadata :=
  { mdFull with name := none }

/-- A match with score 0.91. -/
def match1 : IndexMatch :=
  { score := ⟨91, 100, by decide, by decide⟩, metadata := mdFull }

/-- A match with score 0.78. -/
def match2 : IndexMatch :=
  { score := ⟨39, 50, by decide, by decide⟩, metadata := mdFull }

/-- A match missing a required metadata field. -/
def matchNoName : IndexMatch :=
  { score := ⟨1, 2, by decide, by decide⟩, metadata := mdNoName }

/-- Filesystem on which no file exists. -/
def fsAbsent : String → FileState := fun _ => .absent

/-- Filesystem on which every file exists but cannot be read. -/
def fsUnreadable : String → FileState := fun _ => .unreadable

/-- The fragment `retrieve_relevant_chunks` builds from `match1` at rank 1 when
the owning file is missing. -/
def frag1 : Fragment :=
  { rank := 1, score := ⟨91, 100, by decide, by decide⟩, chunk_type := "macro",
    name := "calc_dy", code := "dy = a - b;",
    explanation := "computes the SDTM DY variable", filename := "dy.sas",
    line_start := 10, line_end := 25, full_file_content := "" }

/-- Same for `match2` at rank 2. -/
def frag2 : Fragment :=
  { frag1 with rank := 2, score := ⟨39, 50, by decide, by decide⟩ }

/-- The fragment built from `match1` when the owning file exists but fails to
read: the placeholder lands in `full_file_content`. -/
def frag1Unreadable : Fragment :=
  { frag1 with full_file_content := "File not accessible" }

/-! ### Claim theorems -/

/-- C2: a successful `retrieve_relevant_chunks` call yields one Fragment per
match returned by the vector index, never more than `top_k` of them (given the
index's contract of returning at most `top_k` matches), and their `rank`
fields are exactly the strict sequence `1..n` in retrieval order — no gaps, no
duplicates, no reordering. -/
theorem retrieve_rank_invariant (fs : String → FileState)
    (matchList : List IndexMatch) (top_k : Nat) (frs : List Fragment)
    (hk : matchList.length ≤ top_k)
    (h : retrieve_relevant_chunks fs matchList = .ok frs) :
    frs.length = matchList.length ∧ frs.length ≤ top_k ∧
      frs.map Fragment.rank = List.range' 1 frs.length := by
  obtain ⟨hlen, hranks⟩ := retrieveAux_ok fs matchList 0 frs h
  refine ⟨hlen, hlen ▸ hk, ?_⟩
  rw [hlen]
  simpa using hranks

/-- Witness for C2 at two concrete matches and `top_k = 3`. -/
theorem retrieve_rank_invariant_witness :
    ([match1, match2] : List IndexMatch).length ≤ 3 ∧
    retrieve_relevant_chunks fsAbsent [match1, match2] = .ok [frag1, frag2] ∧
    ([frag1, frag2].length = ([match1, match2] : List IndexMatch).length ∧
      [frag1, frag2].length ≤ 3 ∧
      [frag1, frag2].map Fragment.rank = List.range' 1 [frag1, frag2].length) :=
  ⟨by decide, by decide,
    retrieve_rank_invariant fsAbsent [match1, match2] 3 [frag1, frag2]
      (by decide) (by decide)⟩

/-- C3: if any match misses one of the required metadata fields `chunk_type`,
`name`, `code` or `explanation`, the whole `retrieve_relevant_chunks` call
fails with a `KeyError`; no fragment list is returned, so the match is neither
silently skipped nor completed with a defaulted required field. -/
theorem retrieve_missing_required_field_fails (fs : String → FileState)
    (matchList : List IndexMatch)
    (h : ∃ m ∈ matchList, m.metadata.chunk_type = none ∨
      m.metadata.name = none ∨ m.metadata.code = none ∨
      m.metadata.explanation = none) :
    (∃ e, retrieve_relevant_chunks fs matchList = .error e) ∧
      ∀ frs, retrieve_relevant_chunks fs matchList ≠ .ok frs := by
  have h' : ∃ m ∈ matchList, ¬ requiredPresent m := by
    obtain ⟨m, hm, hmiss⟩ := h
    refine ⟨m, hm, fun hp => ?_⟩
    obtain ⟨h1, h2, h3, h4⟩ := hp
    rcases hmiss with hh | hh | hh | hh
    · rw [hh] at h1; simp at h1
    · rw [hh] at h2; simp at h2
    · rw [hh] at h3; simp at h3
    · rw [hh] at h4; simp at h4
  obtain ⟨e, he⟩ := retrieveAux_error_of_missing fs matchList 0 h'
  refine ⟨⟨e, he⟩, fun frs hok => ?_⟩
  rw [retrieve_relevant_chunks, he] at hok
  cases hok

/-- Witness for C3 at a concrete match with `name` missing. -/
theorem retrieve_missing_required_field_fails_witness :
    (∃ m ∈ ([matchNoName] : List IndexMatch), m.metadata.chunk_type = none ∨
      m.metadata.name = none ∨ m.metadata.code = none ∨
      m.metadata.explanation = none) ∧
    ((∃ e, retrieve_relevant_chunks fsAbsent [matchNoName] = .error e) ∧
      ∀ frs, retrieve_relevant_chunks fsAbsent [matchNoName] ≠ .ok frs) :=
  ⟨by decide,
    retrieve_missing_required_field_fails fsAbsent [matchNoName] (by decide)⟩

/-- C5: when the required metadata is present, the retrieve call succeeds
whatever the filesystem does — a file-read failure never aborts it — and any
fragment whose file could not be read carries the empty string or the
"File not accessible" placeholder. -/
theorem read_failure_never_aborts (fs : String → FileState)
    (matchList : List IndexMatch)
    (hreq : ∀ m ∈ matchList, requiredPresent m) :
    (∃ frs, retrieve_relevant_chunks fs matchList = .ok frs ∧
      frs.length = matchList.length) ∧
    ∀ i m f, fragmentOfMatch fs i m = .ok f →
      (∀ s, fs (m.metadata.filepath.getD "") ≠ .readable s) →
      f.full_file_content = "" ∨ f.full_file_content = "File not accessible" := by
  refine ⟨retrieveAux_ok_of_required fs matchList 0 hreq, ?_⟩
  intro i m f hok hfail
  have hfull := ((fragmentOfMatch_ok_iff fs i m f).mp hok).2.2.2.2.2.2.2.2.2
  rw [hfull]
  exact readFullFile_of_read_failure fs _ hfail

/-- Witness for C5 on the all-unreadable filesystem. -/
theorem read_failure_never_aborts_witness :
    (∀ m ∈ ([match1] : List IndexMatch), requiredPresent m) ∧
    ((∃ frs, retrieve_relevant_chunks fsUnreadable [match1] = .ok frs ∧
      frs.length = ([match1] : List IndexMatch).length) ∧
    ∀ i m f, fragmentOfMatch fsUnreadable i m = .ok f →
      (∀ s, fsUnreadable (m.metadata.filepath.getD "") ≠ .readable s) →
      f.full_file_content = "" ∨ f.full_file_content = "File not accessible") :=
  ⟨by decide, read_failure_never_aborts fsUnreadable [match1] (by decide)⟩

/-- C4 counterexample: on a match whose `filepath` names an existing but
unreadable file, the returned fragment's `full_file_content` is the
"File not accessible" placeholder, not the empty string the claim requires. -/
theorem full_file_content_empty_counterexample :
    retrieve_relevant_chunks fsUnreadable [match1] = .ok [frag1Unreadable] ∧
      frag1Unreadable.full_file_content ≠ "" := by
  decide

/-- C4 amended: `full_file_content` is empty exactly when the file path is
missing from the metadata (or empty) or the file does not exist; when the file
exists but cannot be read it is the "File not accessible" placeholder; when it
is readable it is the file's text. -/
theorem full_file_content_cases (fs : String → FileState) (i : Nat)
    (m : IndexMatch) (f : Fragment) (h : fragmentOfMatch fs i m = .ok f) :
    (m.metadata.filepath.getD "" = "" → f.full_file_content = "") ∧
    (m.metadata.filepath.getD "" ≠ "" →
      fs (m.metadata.filepath.getD "") = .absent → f.full_file_content = "") ∧
    (m.metadata.filepath.getD "" ≠ "" →
      fs (m.metadata.filepath.getD "") = .unreadable →
      f.full_file_content = "File not accessible") ∧
    (∀ s, m.metadata.filepath.getD "" ≠ "" →
      fs (m.metadata.filepath.getD "") = .readable s →
      f.full_file_content = s) := by
  have hfull := ((fragmentOfMatch_ok_iff fs i m f).mp h).2.2.2.2.2.2.2.2.2
  refine ⟨fun hp => ?_, fun hp hfs => ?_, fun hp hfs => ?_, fun s hp hfs => ?_⟩
  · rw [hfull]; simp [readFullFile, hp]
  · rw [hfull]; simp [readFullFile, hp, hfs]
  · rw [hfull]; simp [readFullFile, hp, hfs]
  · rw [hfull]; simp [readFullFile, hp, hfs]

/-- Witness for C4's amended statement on the all-unreadable filesystem. -/
theorem full_file_content_cases_witness :
    fragmentOfMatch fsUnreadable 0 match1 = .ok frag1Unreadable ∧
    ((match1.metadata.filepath.getD "" = "" →
        frag1Unreadable.full_file_content = "") ∧
    (match1.metadata.filepath.getD "" ≠ "" →
      fsUnreadable (match1.metadata.filepath.getD "") = .absent →
      frag1Unreadable.full_file_content = "") ∧
    (match1.metadata.filepath.getD "" ≠ "" →
      fsUnreadable (match1.metadata.filepath.getD "") = .unreadable →
      frag1Unreadable.full_file_content = "File not accessible") ∧
    (∀ s, match1.metadata.filepath.getD "" ≠ "" →
      fsUnreadable (match1.metadata.filepath.getD "") = .readable s →
      frag1Unreadable.full_file_content = s)) :=
  ⟨by decide, full_file_content_cases fsUnreadable 0 match1 frag1Unreadable (by decide)⟩

/-! ### Section structure of the Context Block -/

/-- One chunk section always carries the chunk's `name` and `chunk_type`. -/
theorem sectionOf_contains (c : Fragment) :
    ContainsStr (sectionOf c) c.name ∧ ContainsStr (sectionOf c) c.chunk_type := by
  constructor
  · by_cases hf : c.full_file_content = ""
    · exact ⟨"\n" ++ sep70 ++ "\n" ++ "CHUNK " ++ toString c.rank ++ ": " ++
        c.chunk_type ++ " - ",
        "\n" ++ ("File: " ++ c.filename ++ " (Lines " ++ toString c.line_start ++
          "-" ++ toString c.line_end ++ ")\n") ++ (sep70 ++ "\n") ++
          "\n--- SPECIFIC CHUNK ---\n" ++ ("Explanation: " ++ c.explanation ++
          "\n") ++ ("Code:\n" ++ c.code ++ "\n"),
        by simp [sectionOf, sectionParts, concatStrings, hf, sep70, String.ext_iff,
          String.data_append, List.append_assoc]⟩
    · exact ⟨"\n" ++ sep70 ++ "\n" ++ "CHUNK " ++ toString c.rank ++ ": " ++
        c.chunk_type ++ " - ",
        "\n" ++ ("File: " ++ c.filename ++ " (Lines " ++ toString c.line_start ++
          "-" ++ toString c.line_end ++ ")\n") ++ (sep70 ++ "\n") ++
          ("\n--- FULL FILE CONTEXT ---\n" ++ c.full_file_content ++ "\n") ++
          "\n--- SPECIFIC CHUNK ---\n" ++ ("Explanation: " ++ c.explanation ++
          "\n") ++ ("Code:\n" ++ c.code ++ "\n"),
        by simp [sectionOf, sectionParts, concatStrings, hf, sep70, String.ext_iff,
          String.data_append, List.append_assoc]⟩
  · by_cases hf : c.full_file_content = ""
    · exact ⟨"\n" ++ sep70 ++ "\n" ++ "CHUNK " ++ toString c.rank ++ ": ",
        " - " ++ c.name ++ "\n" ++ ("File: " ++ c.filename ++ " (Lines " ++
          toString c.line_start ++ "-" ++ toString c.line_end ++ ")\n") ++
          (sep70 ++ "\n") ++ "\n--- SPECIFIC CHUNK ---\n" ++
          ("Explanation: " ++ c.explanation ++ "\n") ++
          ("Code:\n" ++ c.code ++ "\n"),
        by simp [sectionOf, sectionParts, concatStrings, hf, sep70, String.ext_iff,
          String.data_append, List.append_assoc]⟩
    · exact ⟨"\n" ++ sep70 ++ "\n" ++ "CHUNK " ++ toString c.rank ++ ": ",
        " - " ++ c.name ++ "\n" ++ ("File: " ++ c.filename ++ " (Lines " ++
          toString c.line_start ++ "-" ++ toString c.line_end ++ ")\n") ++
          (sep70 ++ "\n") ++ ("\n--- FULL FILE CONTEXT ---\n" ++
          c.full_file_content ++ "\n") ++ "\n--- SPECIFIC CHUNK ---\n" ++
          ("Explanation: " ++ c.explanation ++ "\n") ++
          ("Code:\n" ++ c.code ++ "\n"),
        by simp [sectionOf, sectionParts, concatStrings, hf, sep70, String.ext_iff,
          String.data_append, List.append_assoc]⟩

/-- C6: `build_context` emits exactly one section per input Fragment — the
Context Block is the concatenation of `chunks.map sectionOf`, whose length is
the input length, the map preserving input order — and every chunk's section
carries that chunk's `name` and `chunk_type`. -/
theorem build_context_one_section_per_fragment (chunks : List Fragment) :
    build_context chunks = concatStrings (chunks.map sectionOf) ∧
    (chunks.map sectionOf).length = chunks.length ∧
    ∀ c ∈ chunks, ContainsStr (sectionOf c) c.name ∧
      ContainsStr (sectionOf c) c.chunk_type :=
  ⟨build_context_eq chunks, by simp, fun c _ => sectionOf_contains c⟩

/-- Recognizes the FULL FILE CONTEXT piece among the strings a section is made
of: the piece starting with the FULL FILE CONTEXT banner. -/
def isFullFilePiece (p : String) : Bool :=
  "\n--- FULL FILE CONTEXT ---".data.isPrefixOf p.data

theorem ffp_sep1 : isFullFilePiece ("\n" ++ sep70 ++ "\n") = false := by decide

theorem ffp_sep2 : isFullFilePiece (sep70 ++ "\n") = false := by decide

theorem ffp_specific : isFullFilePiece "\n--- SPECIFIC CHUNK ---\n" = false := by
  decide

theorem ffp_chunkHeader (c : Fragment) :
    isFullFilePiece ("CHUNK " ++ toString c.rank ++ ": " ++ c.chunk_type ++
      " - " ++ c.name ++ "\n") = false := by
  simp [isFullFilePiece, String.data_append, List.isPrefixOf]

theorem ffp_fileHeader (c : Fragment) :
    isFullFilePiece ("File: " ++ c.filename ++ " (Lines " ++
      toString c.line_start ++ "-" ++ toString c.line_end ++ ")\n") = false := by
  simp [isFullFilePiece, String.data_append, List.isPrefixOf]

theorem ffp_explanation (c : Fragment) :
    isFullFilePiece ("Explanation: " ++ c.explanation ++ "\n") = false := by
  simp [isFullFilePiece, String.data_append, List.isPrefixOf]

theorem ffp_code (c : Fragment) :
    isFullFilePiece ("Code:\n" ++ c.code ++ "\n") = false := by
  simp [isFullFilePiece, String.data_append, List.isPrefixOf]

theorem ffp_full (s : String) :
    isFullFilePiece ("\n--- FULL FILE CONTEXT ---\n" ++ s ++ "\n") = true := by
  simp [isFullFilePiece, String.data_append, List.isPrefixOf]

/-- C7: a chunk's section includes the FULL FILE CONTEXT piece exactly once
when `full_file_content` is non-empty and not at all when it is empty; the
Context Block is the concatenation of those sections. -/
theorem full_file_section_count (chunks : List Fragment) :
    build_context chunks = concatStrings (chunks.map sectionOf) ∧
    ∀ c ∈ chunks, sectionOf c = concatStrings (sectionParts c) ∧
      (sectionParts c).countP isFullFilePiece =
        (if c.full_file_content = "" then 0 else 1) := by
  refine ⟨build_context_eq chunks, fun c _ => ⟨rfl, ?_⟩⟩
  by_cases hf : c.full_file_content = "" <;>
    simp [sectionParts, hf, List.countP_cons, List.countP_nil, ffp_sep1,
      ffp_sep2, ffp_specific, ffp_chunkHeader, ffp_fileHeader, ffp_explanation,
      ffp_code, ffp_full]

/-! ### The citation footer -/

theorem citationLineList_length (chunks : List Fragment) :
    (citationLineList chunks).length = 2 * chunks.length := by
  induction chunks with
  | nil => rfl
  | cons c cs ih =>
    simp only [citationLineList, List.flatMap_cons, List.length_append,
      List.length_cons, List.length_nil] at ih ⊢
    omega

/-- What each citation line carries, for one chunk. -/
theorem citLines_contain (c : Fragment) :
    ContainsStr (citLine1 c) c.chunk_type ∧ ContainsStr (citLine1 c) c.name ∧
    ContainsStr (citLine1 c) (formatScore3 c.score) ∧
    ContainsStr (citLine2 c) c.filename := by
  refine ⟨⟨"- ", ": `" ++ c.name ++ "` (score: " ++ formatScore3 c.score ++ ")\n", ?_⟩,
    ⟨"- " ++ c.chunk_type ++ ": `", "` (score: " ++ formatScore3 c.score ++ ")\n", ?_⟩,
    ⟨"- " ++ c.chunk_type ++ ": `" ++ c.name ++ "` (score: ", ")\n", ?_⟩,
    ⟨"  📁 ", " (Lines " ++ toString c.line_start ++ "-" ++
      toString c.line_end ++ ")\n", ?_⟩⟩ <;>
    simp [citLine1, citLine2, String.ext_iff, String.data_append, List.append_assoc]

/-- C1 counterexample: for one concrete Fragment the citation block is two
newline-terminated lines, not one — `chunk_type`, `name` and the 3-decimal
score stand on the first line, the filename and line range on the second — so
its line count is twice the Fragment count, not equal to it. -/
theorem citation_line_count_counterexample :
    concatStrings (citationLineList [frag1]) =
      "- macro: `calc_dy` (score: 0.910)\n  📁 dy.sas (Lines 10-25)\n" ∧
    newlineCount (concatStrings (citationLineList [frag1])) = 2 ∧
    ([frag1] : List Fragment).length = 1 ∧
    newlineCount (concatStrings (citationLineList [frag1])) ≠
      ([frag1] : List Fragment).length := by
  refine ⟨by decide, by decide, by decide, by decide⟩

/-- C1 amended: the composed answer ends with the citation footer, which after
its fixed header consists of two lines per Fragment, in input order: the first
carries the Fragment's `chunk_type`, `name` and score formatted to 3 decimal
places, the second its `filename` and line range.  So the footer's line count
is twice the Fragment count. -/
theorem citation_block_structure (fs : String → FileState)
    (matchList : List IndexMatch) (gen : GenRequest → String)
    (chatModel message : String) (history : List (String × String))
    (chunks : List Fragment)
    (h : retrieve_relevant_chunks fs matchList = .ok chunks) :
    chat_with_sas_assistant fs matchList gen chatModel message history =
      .ok (gen (chatRequest chatModel (build_context chunks) message) ++
        (chunksInfoHeader ++ concatStrings (citationLineList chunks))) ∧
    (citationLineList chunks).length = 2 * chunks.length ∧
    ∀ c ∈ chunks, ContainsStr (citLine1 c) c.chunk_type ∧
      ContainsStr (citLine1 c) c.name ∧
      ContainsStr (citLine1 c) (formatScore3 c.score) ∧
      ContainsStr (citLine2 c) c.filename := by
  refine ⟨?_, citationLineList_length chunks, fun c _ => citLines_contain c⟩
  rw [chat_with_sas_assistant, h]
  show Except.ok _ = _
  rw [chunks_info_eq]

/-- Witness for C1's amended statement on one concrete match. -/
theorem citation_block_structure_witness :
    retrieve_relevant_chunks fsAbsent [match1] = .ok [frag1] ∧
    (chat_with_sas_assistant fsAbsent [match1] (fun _ => "ANSWER") "gpt-4"
        "How do I calculate SDTM DY variable ?" [] =
      .ok ((fun (_ : GenRequest) => "ANSWER")
          (chatRequest "gpt-4" (build_context [frag1])
            "How do I calculate SDTM DY variable ?") ++
        (chunksInfoHeader ++ concatStrings (citationLineList [frag1]))) ∧
    (citationLineList [frag1]).length = 2 * ([frag1] : List Fragment).length ∧
    ∀ c ∈ ([frag1] : List Fragment), ContainsStr (citLine1 c) c.chunk_type ∧
      ContainsStr (citLine1 c) c.name ∧
      ContainsStr (citLine1 c) (formatScore3 c.score) ∧
      ContainsStr (citLine2 c) c.filename) :=
  ⟨by decide,
    citation_block_structure fsAbsent [match1] (fun _ => "ANSWER") "gpt-4"
      "How do I calculate SDTM DY variable ?" [] [frag1] (by decide)⟩

/-- C8: an empty match list yields an empty Fragment sequence, `build_context`
returns the empty string, and the chat turn still goes through: the generation
request embeds the empty Context Block and the citation footer carries zero
citation lines — nothing rejects or special-cases the empty sequence. -/
theorem empty_fragment_sequence (fs : String → FileState)
    (gen : GenRequest → String) (chatModel message : String)
    (history : List (String × String)) :
    retrieve_relevant_chunks fs [] = .ok [] ∧
    build_context [] = "" ∧
    concatStrings (citationLineList []) = "" ∧
    chunks_info [] = chunksInfoHeader ∧
    chat_with_sas_assistant fs [] gen chatModel message history =
      .ok (gen (chatRequest chatModel "" message) ++ chunksInfoHeader) :=
  ⟨rfl, rfl, rfl, rfl, rfl⟩

/-- C9: `build_context` is deterministic — it is a pure function of the
Fragment sequence alone (it takes no filesystem or service input), so two
calls on the same unmodified sequence yield byte-identical strings. -/
theorem build_context_deterministic (cs₁ cs₂ : List Fragment) (h : cs₁ = cs₂) :
    build_context cs₁ = build_context cs₂ :=
  congrArg build_context h

/-- Witness for C9 on a concrete Fragment sequence. -/
theorem build_context_deterministic_witness :
    ([frag1, frag2] : List Fragment) = [frag1, frag2] ∧
    build_context [frag1, frag2] = build_context [frag1, frag2] :=
  ⟨rfl, build_context_deterministic [frag1, frag2] [frag1, frag2] rfl⟩

/-- C10: the chat entry point never reads the prior-turns argument: with equal
external services (filesystem, index response, generation oracle) and equal
message, any two history values produce the identical result — hence the
identical retrieval, prompt and generation request, since the result is equal
for every generation oracle `gen`. -/
theorem chat_history_independent (fs : String → FileState)
    (matchList : List IndexMatch) (gen : GenRequest → String)
    (chatModel message : String)
    (history₁ history₂ : List (String × String)) :
    chat_with_sas_assistant fs matchList gen chatModel message history₁ =
      chat_with_sas_assistant fs matchList gen chatModel message history₂ :=
  rfl

end SasChat
